import Mathlib

/-!
Verification of the gap-analyzer core (Go repository `yencarnacion/gap-analyzer`).

The Go source (`main.go`, daily-plus-intraday variant) is shallowly embedded
here.  `float64` arithmetic is modelled over `ℚ` (exact arithmetic; the claims
under scrutiny are algebraic/structural, not about IEEE rounding), Go `int`
over `ℤ`/`ℕ`, Go strings over `String`, and Go maps with a fixed key set over
functions into `Option`.

Two pieces of behaviour delegated by the source to the Go standard library are
abstracted as explicit function parameters:
* `dateOf : ℤ → ℕ` models `sessionDateNYFromDaily` (ms-epoch timestamp to
  NY-session date); date codes are naturals, order-isomorphic to the
  `YYYY-MM-DD` strings the Go code produces.
* `weekdayOf : ℤ → String` models `sessionWeekdayNYFromDaily`.
* `hourOf, minuteOf : ℤ → ℕ` model the NY wall-clock hour/minute of an
  intraday bar timestamp (`toNY(...).Hour()` / `.Minute()`).
-/

/-- One OHLCV bar, mirroring Go struct `polygonBar` (`t` ms epoch, `o,h,l,c,v`). -/
structure PolygonBar where
  t : ℤ
  o : ℚ
  h : ℚ
  l : ℚ
  c : ℚ
  v : ℚ
deriving DecidableEq

/-- Per-event record, mirroring Go struct `GapPoint` (intraday variant).
`Date` is the abstract NY-session date code. -/
structure GapPoint where
  Date : ℕ
  GapPct : ℚ
  DailyReturnPct : ℚ
  Direction : ℤ
  SameDir : ℕ
  Filled : ℕ
  Bin : String
  Open : ℚ
  Close : ℚ
  PrevClose : ℚ
  DayOfWeek : String
  Ret15mPct : ℚ
  FilledBy0945 : ℕ
deriving DecidableEq

/-- Mirrors Go struct `BinStat`. -/
structure BinStat where
  Label : String
  Count : ℕ
  ContinuationRate : ℚ
  GapFillRate : ℚ
  FadeAvg : ℚ
  FollowAvg : ℚ
  Recommendation : String
deriving DecidableEq

/-- Mirrors Go struct `SideStat`. -/
structure SideStat where
  Count : ℕ
  ContinuationRate : ℚ
  FadeAvg : ℚ
  FollowAvg : ℚ
deriving DecidableEq

/-- Mirrors Go struct `DowStat`. -/
structure DowStat where
  Count : ℕ
  ContinuationRate : ℚ
  FadeAvg : ℚ
  FollowAvg : ℚ
deriving DecidableEq

/-- Mirrors Go struct `Summary`. -/
structure Summary where
  Sessions : ℕ
  ContinuationRate : ℚ
  GapUps : ℕ
  GapDowns : ℕ
  MeanGap : ℚ
  MaxGapUp : ℚ
  MaxGapDown : ℚ
  FadeAvg : ℚ
  FollowAvg : ℚ
  BestStrategy : String
  ExpectedReturn : ℚ
deriving DecidableEq

/-- Mirrors Go struct `Summary15`. -/
structure Summary15 where
  Sessions : ℕ
  ContinuationRate : ℚ
  FadeAvg : ℚ
  FollowAvg : ℚ
  BestStrategy : String
  ExpectedReturn : ℚ
  GapFillBy0945Rate : ℚ
deriving DecidableEq

/-- Mirrors Go struct `BinStat15`. -/
structure BinStat15 where
  Label : String
  Count : ℕ
  ContinuationRate : ℚ
  GapFillBy0945Rate : ℚ
  FadeAvg : ℚ
  FollowAvg : ℚ
  Recommendation : String
deriving DecidableEq

/-- Mirrors Go struct `AnalyzeResponse` (daily plus 0-15m fields).  The Go
maps `ByDOW`/`ByDOW15` are modelled as partial functions from key strings. -/
structure AnalyzeResponse where
  Success : Bool
  Error : String
  Ticker : String
  Years : ℤ
  MinGap : ℚ
  Data : List GapPoint
  Summary : Summary
  Bins : List BinStat
  ByDOW : String → Option DowStat
  UpSide : SideStat
  DownSide : SideStat
  CumDates : List ℕ
  CumFade : List ℚ
  CumFollow : List ℚ
  Summary15 : Summary15
  Bins15 : List BinStat15
  ByDOW15 : String → Option DowStat
  UpSide15 : SideStat
  DownSide15 : SideStat

/-- Mirrors Go `func sign(x float64) int`. -/
def sign (x : ℚ) : ℤ :=
  if x > 0 then 1 else if x < 0 then -1 else 0

/-- Round half away from zero to an integer; models Go `math.Round`. -/
def roundAway (x : ℚ) : ℤ :=
  if 0 ≤ x then ⌊x + 1/2⌋ else ⌈x - 1/2⌉

/-- Mirrors Go `round1` (`math.Round(f*10)/10`; `Rat.divInt n 10` is the
rational `n/10`). -/
def round1 (f : ℚ) : ℚ := Rat.divInt (roundAway (f * 10)) 10

/-- Mirrors Go `round2` (`math.Round(f*100)/100`). -/
def round2 (f : ℚ) : ℚ := Rat.divInt (roundAway (f * 100)) 100

/-- Mirrors Go `round3` (`math.Round(f*1000)/1000`). -/
def round3 (f : ℚ) : ℚ := Rat.divInt (roundAway (f * 1000)) 1000

/-- Mirrors Go `func rate(n, d int) float64`. -/
def rate (n d : ℕ) : ℚ :=
  if d = 0 then 0 else round1 ((n : ℚ) / (d : ℚ) * 100)

/-- Mirrors Go `func avg(sum float64, n int) float64`. -/
def avg (sum : ℚ) (n : ℕ) : ℚ :=
  if n = 0 then 0 else round3 (sum / (n : ℚ))

/-- Mirrors Go struct `gapBin`. -/
structure gapBin where
  min : ℚ
  max : ℚ
  lab : String
deriving DecidableEq

/-- Round half to even to an integer; used to model Go `fmt.Sprintf("%.1f", _)`
formatting of the first bin edge. -/
def rhe (x : ℚ) : ℤ :=
  let f := ⌊x⌋
  let r := x - (f : ℚ)
  if r < 1/2 then f else if 1/2 < r then f + 1 else if f % 2 = 0 then f else f + 1

/-- Models Go `fmt.Sprintf("%.1f", q)`: one-decimal fixed-point rendering
(round half to even, as Go's `strconv` does). -/
def fmt1 (q : ℚ) : String :=
  let n := rhe (q * 10)
  let s := if n < 0 then "-" else ""
  s ++ toString (n.natAbs / 10) ++ "." ++ toString (n.natAbs % 10)

/-- Mirrors Go `func defaultBins(minGap float64) []gapBin`. -/
def defaultBins (minGap : ℚ) : List gapBin :=
  let start := if minGap < 1/10 then 1/10 else minGap
  [ { min := start, max := 1/2, lab := fmt1 start ++ "–0.5%" },
    { min := 1/2, max := 1, lab := "0.5–1.0%" },
    { min := 1, max := 3/2, lab := "1.0–1.5%" },
    { min := 3/2, max := 99, lab := ">1.5%" } ]

/-- Mirrors Go `func labelFor(absGap float64, bins []gapBin) string`. -/
def labelFor (absGap : ℚ) (bins : List gapBin) : String :=
  match bins with
  | [] => "other"
  | b :: rest => if absGap ≥ b.min ∧ absGap < b.max then b.lab else labelFor absGap rest

/-- All per-iteration quantities of the `analyzeDaily` loop body for one
qualifying consecutive bar pair, kept unrounded (the Go aggregation uses the
unrounded values; only `GapPoint` emission rounds). -/
structure GapEvent where
  t : ℤ
  gapPct : ℚ
  dr : ℚ
  dir : ℤ
  same : ℕ
  filled : ℕ
  absGap : ℚ
  bin : String
  dow : String
  followRet : ℚ
  fadeRet : ℚ
  openPx : ℚ
  closePx : ℚ
  prevClose : ℚ
deriving DecidableEq

/-- Mirrors Go `math.Abs` (exact, sign-flip form). -/
def rabs (x : ℚ) : ℚ := if x < 0 then -x else x

/-- The body of the `analyzeDaily` loop (source lines 332-440) for one pair
`(prev, day)` up to (and excluding) the accumulator updates: `none` models
`continue`. -/
def mkEvent (weekdayOf : ℤ → String) (minGap : ℚ) (prev day : PolygonBar) :
    Option GapEvent :=
  if prev.c ≤ 0 ∨ day.o ≤ 0 then none
  else
    let gapPct := (day.o - prev.c) / prev.c * 100
    if rabs gapPct < minGap then none
    else
      let dr := (day.c - day.o) / day.o * 100
      let dir := sign gapPct
      let same : ℕ := if sign dr = dir ∧ dir ≠ 0 ∧ dr ≠ 0 then 1 else 0
      let filled : ℕ :=
        if (dir = 1 ∧ day.l ≤ prev.c) ∨ (dir = -1 ∧ day.h ≥ prev.c) then 1 else 0
      let absGap := rabs gapPct
      some
        { t := day.t
          gapPct := gapPct
          dr := dr
          dir := dir
          same := same
          filled := filled
          absGap := absGap
          bin := labelFor absGap (defaultBins minGap)
          dow := weekdayOf day.t
          followRet := (dir : ℚ) * dr
          fadeRet := -(dir : ℚ) * dr
          openPx := day.o
          closePx := day.c
          prevClose := prev.c }

/-- The qualifying gap events of the `analyzeDaily` loop, in order: the Go
loop visits the consecutive pairs `(daily[i-1], daily[i])` even across
skipped pairs, i.e. exactly `zip daily daily.tail`. -/
def gapEvents (weekdayOf : ℤ → String) (minGap : ℚ) (daily : List PolygonBar) :
    List GapEvent :=
  (daily.zip daily.tail).filterMap (fun pd => mkEvent weekdayOf minGap pd.1 pd.2)

/-- The `GapPoint` appended for an event (source lines 427-439): display
fields rounded to 3 decimals, 0-15m fields left at their zero value. -/
def toGapPoint (dateOf : ℤ → ℕ) (e : GapEvent) : GapPoint :=
  { Date := dateOf e.t
    GapPct := round3 e.gapPct
    DailyReturnPct := round3 e.dr
    Direction := e.dir
    SameDir := e.same
    Filled := e.filled
    Bin := e.bin
    Open := e.openPx
    Close := e.closePx
    PrevClose := e.prevClose
    DayOfWeek := e.dow
    Ret15mPct := 0
    FilledBy0945 := 0 }

/-- Accumulator `followSum` of `analyzeDaily` (also the `sumFollow` field of
each per-group accumulator, over that group's events). -/
def followSum (evs : List GapEvent) : ℚ := (evs.map GapEvent.followRet).sum

/-- Accumulator `fadeSum` of `analyzeDaily`. -/
def fadeSum (evs : List GapEvent) : ℚ := (evs.map GapEvent.fadeRet).sum

/-- Accumulator `contCount` (`cont` in the per-group aggregates). -/
def contCount (evs : List GapEvent) : ℕ := evs.countP (fun e => e.same == 1)

/-- Accumulator `filled` count in the per-group aggregates. -/
def filledCount (evs : List GapEvent) : ℕ := evs.countP (fun e => e.filled == 1)

/-- Accumulator `upCount` (`dir == 1`). -/
def upCount (evs : List GapEvent) : ℕ := evs.countP (fun e => e.dir == 1)

/-- Accumulator `downCount` (`else if dir == -1`). -/
def downCount (evs : List GapEvent) : ℕ := evs.countP (fun e => e.dir == -1)

/-- Accumulator `meanAbsGap` (a running sum before division). -/
def meanAbsGap (evs : List GapEvent) : ℚ := (evs.map GapEvent.absGap).sum

/-- Accumulator `maxGapUp`: starts at 0, replaced whenever `gapPct > maxGapUp`. -/
def maxGapUp (evs : List GapEvent) : ℚ :=
  evs.foldl (fun m e => if e.gapPct > m then e.gapPct else m) 0

/-- Accumulator `maxGapDown`: starts at 0, replaced whenever `gapPct < maxGapDown`. -/
def maxGapDown (evs : List GapEvent) : ℚ :=
  evs.foldl (fun m e => if e.gapPct < m then e.gapPct else m) 0

/-- Running partial sums (`cumFade += fadeRet` / `cumFollow += followRet`):
element `i` is `acc` plus the sum of the first `i+1` inputs. -/
def runningSums (acc : ℚ) : List ℚ → List ℚ
  | [] => []
  | x :: xs => (acc + x) :: runningSums (acc + x) xs

/-- The recommendation threshold logic shared by the daily and 0-15m bin
tables (source lines 495-500 and 743-748). -/
def recommendationFor (cr : ℚ) : String :=
  if cr > 60 then "FOLLOW" else if cr < 40 then "FADE" else "NEUTRAL"

/-- One entry of `outBins` (source lines 484-510): the zero-valued `BinStat`
when the bin's accumulator count is 0, the computed statistics otherwise. -/
def mkBinStat (b : gapBin) (evs : List GapEvent) : BinStat :=
  let sel := evs.filter (fun e => e.bin == b.lab)
  if sel.length = 0 then
    { Label := b.lab, Count := 0, ContinuationRate := 0, GapFillRate := 0,
      FadeAvg := 0, FollowAvg := 0, Recommendation := "" }
  else
    let cr : ℚ := (contCount sel : ℚ) / (sel.length : ℚ) * 100
    let gr : ℚ := (filledCount sel : ℚ) / (sel.length : ℚ) * 100
    { Label := b.lab
      Count := sel.length
      ContinuationRate := round1 cr
      GapFillRate := round1 gr
      FadeAvg := round3 (fadeSum sel / (sel.length : ℚ))
      FollowAvg := round3 (followSum sel / (sel.length : ℚ))
      Recommendation := recommendationFor cr }

/-- `resp.UpSide` / `resp.DownSide` construction (source lines 514-525). -/
def mkSideStat (evs : List GapEvent) : SideStat :=
  { Count := evs.length
    ContinuationRate := rate (contCount evs) evs.length
    FadeAvg := avg (fadeSum evs) evs.length
    FollowAvg := avg (followSum evs) evs.length }

/-- One `DowStat` of `resp.ByDOW` (source lines 526-534). -/
def mkDowStat (evs : List GapEvent) : DowStat :=
  { Count := evs.length
    ContinuationRate := rate (contCount evs) evs.length
    FadeAvg := avg (fadeSum evs) evs.length
    FollowAvg := avg (followSum evs) evs.length }

/-- The five keys eagerly installed in the `dowAgg` map. -/
def weekdayKeys : List String := ["Mon", "Tue", "Wed", "Thu", "Fri"]

/-- Go zero value of `Summary`. -/
def zeroSummary : Summary :=
  { Sessions := 0, ContinuationRate := 0, GapUps := 0, GapDowns := 0, MeanGap := 0,
    MaxGapUp := 0, MaxGapDown := 0, FadeAvg := 0, FollowAvg := 0,
    BestStrategy := "", ExpectedReturn := 0 }

/-- Go zero value of `Summary15`. -/
def zeroSummary15 : Summary15 :=
  { Sessions := 0, ContinuationRate := 0, FadeAvg := 0, FollowAvg := 0,
    BestStrategy := "", ExpectedReturn := 0, GapFillBy0945Rate := 0 }

/-- Go zero value of `SideStat`. -/
def zeroSideStat : SideStat :=
  { Count := 0, ContinuationRate := 0, FadeAvg := 0, FollowAvg := 0 }

/-- Pass 1, Go `func analyzeDaily(daily []polygonBar, minGap float64, years
int, ticker string) (AnalyzeResponse, []GapPoint)` (source lines 295-537).
The second return value is `resp.Data`.  The single streaming fold of the
source updates each accumulator with exactly the per-event quantities of
`mkEvent`; it is rendered here accumulator by accumulator over the event
list.  The trailing `sort.Slice(outBins, func(i, j int) bool { return i < j })`
compares positions, not values, and never reorders; it is omitted.
The Go maps `binAgg`/`dowAgg` are keyed by the (pairwise distinct) bin labels
and weekday names; an event whose label is absent from the map (`"other"`,
or a weekend weekday) updates nothing. -/
def analyzeDaily (daily : List PolygonBar) (minGap : ℚ) (years : ℤ)
    (ticker : String) (dateOf : ℤ → ℕ) (weekdayOf : ℤ → String) :
    AnalyzeResponse :=
  if daily.length < 2 then
    { Success := false, Error := "not enough data", Ticker := ticker,
      Years := years, MinGap := minGap, Data := [], Summary := zeroSummary,
      Bins := [], ByDOW := fun _ => none, UpSide := zeroSideStat,
      DownSide := zeroSideStat, CumDates := [], CumFade := [], CumFollow := [],
      Summary15 := zeroSummary15, Bins15 := [], ByDOW15 := fun _ => none,
      UpSide15 := zeroSideStat, DownSide15 := zeroSideStat }
  else
    let bins := defaultBins minGap
    let evs := gapEvents weekdayOf minGap daily
    let total := evs.length
    let contRate : ℚ := if 0 < total then (contCount evs : ℚ) / (total : ℚ) * 100 else 0
    let fadeAvg : ℚ := if 0 < total then fadeSum evs / (total : ℚ) else 0
    let followAvg : ℚ := if 0 < total then followSum evs / (total : ℚ) else 0
    let best := if followAvg > fadeAvg then "FOLLOW"
      else if fadeAvg > followAvg then "FADE" else "NEUTRAL"
    let exp := if followAvg > fadeAvg then followAvg
      else if fadeAvg > followAvg then fadeAvg else 0
    let meanAbsGapPct : ℚ := if 0 < total then meanAbsGap evs / (total : ℚ) else 0
    { Success := true
      Error := ""
      Ticker := ticker
      Years := years
      MinGap := minGap
      Data := evs.map (toGapPoint dateOf)
      Summary :=
        { Sessions := total
          ContinuationRate := round1 contRate
          GapUps := upCount evs
          GapDowns := downCount evs
          MeanGap := round2 meanAbsGapPct
          MaxGapUp := round2 (maxGapUp evs)
          MaxGapDown := round2 (maxGapDown evs)
          FadeAvg := round3 fadeAvg
          FollowAvg := round3 followAvg
          BestStrategy := best
          ExpectedReturn := round3 exp }
      Bins := bins.map (fun b => mkBinStat b evs)
      ByDOW := fun k =>
        if k ∈ weekdayKeys then some (mkDowStat (evs.filter (fun e => e.dow == k)))
        else none
      UpSide := mkSideStat (evs.filter (fun e => e.dir == 1))
      DownSide := mkSideStat (evs.filter (fun e => !(e.dir == 1)))
      CumDates := evs.map (fun e => dateOf e.t)
      CumFade := (runningSums 0 (evs.map GapEvent.fadeRet)).map round3
      CumFollow := (runningSums 0 (evs.map GapEvent.followRet)).map round3
      Summary15 := zeroSummary15
      Bins15 := []
      ByDOW15 := fun _ => none
      UpSide15 := zeroSideStat
      DownSide15 := zeroSideStat }

/-- Per-point 0-15m quantities, unrounded, computed by one iteration of the
`analyzeFirst15` loop (source lines 565-701). -/
structure Contrib15 where
  ret15 : ℚ
  cont15 : ℕ
  filled0945 : ℕ
  followRet15 : ℚ
  fadeRet15 : ℚ
deriving DecidableEq

/-- One iteration of the `analyzeFirst15` loop up to (and excluding) the
accumulator updates and the per-point write-back; `none` models `continue`
(no contribution, point left unchanged). -/
def first15Compute (hourOf minuteOf : ℤ → ℕ) (m : ℕ → List PolygonBar)
    (p : GapPoint) : Option Contrib15 :=
  let mins := m p.Date
  if mins = [] then none
  else
    let rth0 := mins.filter (fun b =>
      hourOf b.t = 9 ∧ 30 ≤ minuteOf b.t ∧ minuteOf b.t ≤ 44)
    let rth := if rth0 = [] then
        mins.filter (fun b => hourOf b.t = 9 ∧ minuteOf b.t ≤ 45)
      else rth0
    match rth.getLast? with
    | none => none
    | some lastBar =>
      let found := (rth.find? (fun b => minuteOf b.t = 30)).map PolygonBar.o
      let open0930 := if found.getD 0 = 0 then p.Open else found.getD 0
      if open0930 ≤ 0 then none
      else
        let close0945 := lastBar.c
        let filled0945 : ℕ :=
          if p.Direction = 1 then
            (if rth.any (fun b => b.l ≤ p.PrevClose) then 1 else 0)
          else if p.Direction = -1 then
            (if rth.any (fun b => b.h ≥ p.PrevClose) then 1 else 0)
          else 0
        let ret15 := (close0945 - open0930) / open0930 * 100
        let cont15 : ℕ :=
          if sign ret15 = p.Direction ∧ p.Direction ≠ 0 ∧ ret15 ≠ 0 then 1 else 0
        some
          { ret15 := ret15
            cont15 := cont15
            filled0945 := filled0945
            followRet15 := (p.Direction : ℚ) * ret15
            fadeRet15 := -(p.Direction : ℚ) * ret15 }

/-- The contributing points of the `analyzeFirst15` loop, each paired with
its computed 0-15m quantities, in order. -/
def contribs15 (hourOf minuteOf : ℤ → ℕ) (m : ℕ → List PolygonBar)
    (pts : List GapPoint) : List (GapPoint × Contrib15) :=
  pts.filterMap (fun p => (first15Compute hourOf minuteOf m p).map (fun c => (p, c)))

/-- The per-point write-back (source lines 698-700): contributing points get
`Ret15mPct`/`FilledBy0945` set, skipped points are untouched. -/
def updatePoint15 (hourOf minuteOf : ℤ → ℕ) (m : ℕ → List PolygonBar)
    (p : GapPoint) : GapPoint :=
  match first15Compute hourOf minuteOf m p with
  | none => p
  | some c => { p with Ret15mPct := round3 c.ret15, FilledBy0945 := c.filled0945 }

/-- Sum of `followRet15` over the contributing points (`followSum15`). -/
def followSum15 (cs : List (GapPoint × Contrib15)) : ℚ :=
  (cs.map (fun pc => pc.2.followRet15)).sum

/-- Sum of `fadeRet15` over the contributing points (`fadeSum15`). -/
def fadeSum15 (cs : List (GapPoint × Contrib15)) : ℚ :=
  (cs.map (fun pc => pc.2.fadeRet15)).sum

/-- Count of `cont15 == 1` over the contributing points (`contCount15`). -/
def contCount15 (cs : List (GapPoint × Contrib15)) : ℕ :=
  cs.countP (fun pc => pc.2.cont15 == 1)

/-- Count of `filled0945 == 1` over the contributing points
(`filledBy0945Count`, also the per-group `filledBy0945`). -/
def filled0945Count (cs : List (GapPoint × Contrib15)) : ℕ :=
  cs.countP (fun pc => pc.2.filled0945 == 1)

/-- `resp.Summary15` construction (source lines 703-729). -/
def mkSummary15 (cs : List (GapPoint × Contrib15)) : Summary15 :=
  let sessions15 := cs.length
  let contRate15 : ℚ :=
    if 0 < sessions15 then (contCount15 cs : ℚ) / (sessions15 : ℚ) * 100 else 0
  let fadeAvg15 : ℚ := if 0 < sessions15 then fadeSum15 cs / (sessions15 : ℚ) else 0
  let followAvg15 : ℚ := if 0 < sessions15 then followSum15 cs / (sessions15 : ℚ) else 0
  let fill0945Rate : ℚ :=
    if 0 < sessions15 then (filled0945Count cs : ℚ) / (sessions15 : ℚ) * 100 else 0
  let best15 := if followAvg15 > fadeAvg15 then "FOLLOW"
    else if fadeAvg15 > followAvg15 then "FADE" else "NEUTRAL"
  let exp15 := if followAvg15 > fadeAvg15 then followAvg15
    else if fadeAvg15 > followAvg15 then fadeAvg15 else 0
  { Sessions := sessions15
    ContinuationRate := round1 contRate15
    FadeAvg := round3 fadeAvg15
    FollowAvg := round3 followAvg15
    BestStrategy := best15
    ExpectedReturn := round3 exp15
    GapFillBy0945Rate := round1 fill0945Rate }

/-- One entry of `outBins15` (source lines 731-758). -/
def mkBinStat15 (b : gapBin) (cs : List (GapPoint × Contrib15)) : BinStat15 :=
  let sel := cs.filter (fun pc => pc.1.Bin == b.lab)
  if sel.length = 0 then
    { Label := b.lab, Count := 0, ContinuationRate := 0, GapFillBy0945Rate := 0,
      FadeAvg := 0, FollowAvg := 0, Recommendation := "" }
  else
    let cr : ℚ := (contCount15 sel : ℚ) / (sel.length : ℚ) * 100
    let gr : ℚ := (filled0945Count sel : ℚ) / (sel.length : ℚ) * 100
    { Label := b.lab
      Count := sel.length
      ContinuationRate := round1 cr
      GapFillBy0945Rate := round1 gr
      FadeAvg := round3 (fadeSum15 sel / (sel.length : ℚ))
      FollowAvg := round3 (followSum15 sel / (sel.length : ℚ))
      Recommendation := recommendationFor cr }

/-- `resp.UpSide15` / `resp.DownSide15` construction (source lines 762-773). -/
def mkSideStat15 (cs : List (GapPoint × Contrib15)) : SideStat :=
  { Count := cs.length
    ContinuationRate := rate (contCount15 cs) cs.length
    FadeAvg := avg (fadeSum15 cs) cs.length
    FollowAvg := avg (followSum15 cs) cs.length }

/-- One `DowStat` of `resp.ByDOW15` (source lines 775-783). -/
def mkDowStat15 (cs : List (GapPoint × Contrib15)) : DowStat :=
  { Count := cs.length
    ContinuationRate := rate (contCount15 cs) cs.length
    FadeAvg := avg (fadeSum15 cs) cs.length
    FollowAvg := avg (followSum15 cs) cs.length }

/-- Pass 2, Go `func analyzeFirst15(resp *AnalyzeResponse, minutesByDate
map[string][]polygonBar)` (source lines 540-787), rendered functionally: the
Go function mutates only `resp.Data` (0-15m fields of contributing points)
and the five 0-15m aggregate fields.  Unlike `binAgg`, the `binAgg15` and
`dowAgg15` maps insert missing keys on demand; `outBins15` still reads only
the four bin labels, while `ByDOW15` ranges over every key of `dowAgg15`
(the five eager keys plus any inserted ones). -/
def analyzeFirst15 (resp : AnalyzeResponse) (m : ℕ → List PolygonBar)
    (hourOf minuteOf : ℤ → ℕ) : AnalyzeResponse :=
  let pts := resp.Data
  if pts = [] then resp
  else
    let bins := defaultBins resp.MinGap
    let cs := contribs15 hourOf minuteOf m pts
    { resp with
      Data := pts.map (updatePoint15 hourOf minuteOf m)
      Summary15 := mkSummary15 cs
      Bins15 := bins.map (fun b => mkBinStat15 b cs)
      ByDOW15 := fun k =>
        if k ∈ weekdayKeys ∨ k ∈ cs.map (fun pc => pc.1.DayOfWeek) then
          some (mkDowStat15 (cs.filter (fun pc => pc.1.DayOfWeek == k)))
        else none
      UpSide15 := mkSideStat15 (cs.filter (fun pc => pc.1.Direction == 1))
      DownSide15 := mkSideStat15 (cs.filter (fun pc => !(pc.1.Direction == 1))) }

/-! ### Concrete sample inputs used by witnesses and counterexamples -/

/-- Trivial date map for concrete runs (order-preserving). -/
def dateId : ℤ → ℕ := Int.toNat

/-- Trivial weekday map for concrete runs. -/
def mondayOf : ℤ → String := fun _ => "Mon"

/-- Two bars: prior close 2, then open 3 / high 5 / low 3 / close 4
(gap +50%, daily return +100/3 %). -/
def sampleBar0 : PolygonBar := ⟨0, 1, 1, 1, 2, 0⟩

/-- Second bar of `sampleDaily`. -/
def sampleBar1 : PolygonBar := ⟨1, 3, 5, 3, 4, 0⟩

/-- A two-bar daily series with one qualifying gap-up event. -/
def sampleDaily : List PolygonBar := [sampleBar0, sampleBar1]

/-- The unrounded event extracted from `sampleDaily` at `minGap = 0.3`. -/
def sampleEvent : GapEvent :=
  ⟨1, 50, 100/3, 1, 1, 0, 50, ">1.5%", "Mon", 100/3, -(100/3), 3, 4, 2⟩

/-- The emitted `GapPoint` for `sampleEvent` under `dateId`
(`Rat.divInt 33333 1000` is the rounded daily return 33.333). -/
def samplePoint : GapPoint :=
  ⟨1, 50, Rat.divInt 33333 1000, 1, 1, 0, ">1.5%", 3, 4, 2, "Mon", 0, 0⟩

/-- Two bars with prior close 1 and open 2: a +100% gap, whose absolute size
falls outside every bin (the last bin stops at 99). -/
def hugeGapDaily : List PolygonBar := [⟨0, 1, 1, 1, 1, 0⟩, ⟨1, 2, 2, 2, 2, 0⟩]

/-- Two bars with prior close 1 and a flat second day at 251/250: a +0.4%
gap landing in the first bin, leaving the other bins empty. -/
def binGapDaily : List PolygonBar :=
  [⟨0, 1, 1, 1, 1, 0⟩, ⟨1, 251/250, 251/250, 251/250, 251/250, 0⟩]

/-- Two bars with prior close 2 and a flat second day at 1: a -50% gap-down
event, with no gap-up event at all. -/
def downDaily : List PolygonBar := [⟨0, 1, 1, 1, 2, 0⟩, ⟨1, 1, 1, 1, 1, 0⟩]

/-- One intraday minute bar for the sample session (close 3.1 after open 3). -/
def sampleMinuteBar : PolygonBar := ⟨1000, 3, 3, 3, 31/10, 0⟩

/-- Intraday map: minute data only for date code 1 (the sample session). -/
def sampleMinutes : ℕ → List PolygonBar := fun d => if d = 1 then [sampleMinuteBar] else []

/-- Intraday map with no bars for any date. -/
def noMinutes : ℕ → List PolygonBar := fun _ => []

/-- Wall-clock hour map for concrete runs: every bar stamps as 09:xx. -/
def nineOf : ℤ → ℕ := fun _ => 9

/-- Wall-clock minute map for concrete runs: every bar stamps as xx:30. -/
def thirtyOf : ℤ → ℕ := fun _ => 30

/-- The daily response for `sampleDaily` at threshold 0.3. -/
def sampleResp : AnalyzeResponse := analyzeDaily sampleDaily (3/10) 3 "X" dateId mondayOf

/-! ### Basic facts about the loop body -/

theorem rabs_eq_abs (x : ℚ) : rabs x = |x| := by
  unfold rabs
  by_cases h : x < 0
  · rw [if_pos h, abs_of_neg h]
  · rw [if_neg h, abs_of_nonneg (le_of_not_lt h)]

theorem mkEvent_fields {w : ℤ → String} {mg : ℚ} {prev day : PolygonBar}
    {e : GapEvent} (h : mkEvent w mg prev day = some e) :
    0 < prev.c ∧ 0 < day.o ∧
    e.gapPct = (day.o - prev.c) / prev.c * 100 ∧
    mg ≤ |e.gapPct| ∧
    e.dr = (day.c - day.o) / day.o * 100 ∧
    e.dir = sign e.gapPct ∧
    e.same = (if sign e.dr = e.dir ∧ e.dir ≠ 0 ∧ e.dr ≠ 0 then 1 else 0) ∧
    e.filled = (if (e.dir = 1 ∧ day.l ≤ prev.c) ∨ (e.dir = -1 ∧ day.h ≥ prev.c)
      then 1 else 0) ∧
    e.absGap = |e.gapPct| ∧
    e.bin = labelFor e.absGap (defaultBins mg) ∧
    e.dow = w day.t ∧
    e.t = day.t ∧
    e.followRet = (e.dir : ℚ) * e.dr ∧
    e.fadeRet = -(e.dir : ℚ) * e.dr ∧
    e.openPx = day.o ∧ e.closePx = day.c ∧ e.prevClose = prev.c := by
  simp only [mkEvent] at h
  by_cases h1 : prev.c ≤ 0 ∨ day.o ≤ 0
  · rw [if_pos h1] at h; exact absurd h (by simp)
  rw [if_neg h1] at h
  by_cases h2 : rabs ((day.o - prev.c) / prev.c * 100) < mg
  · rw [if_pos h2] at h; exact absurd h (by simp)
  rw [if_neg h2] at h
  have he := Option.some.inj h
  subst he
  push_neg at h1
  rw [rabs_eq_abs] at h2
  refine ⟨h1.1, h1.2, rfl, not_lt.mp h2, rfl, rfl, rfl, rfl, rabs_eq_abs _,
    rfl, rfl, rfl, rfl, rfl, rfl, rfl, rfl⟩

theorem mkEvent_skip {w : ℤ → String} {mg : ℚ} {prev day : PolygonBar}
    (h : prev.c ≤ 0 ∨ day.o ≤ 0) : mkEvent w mg prev day = none := by
  simp only [mkEvent, if_pos h]

theorem gapEvents_short {w : ℤ → String} {mg : ℚ} {daily : List PolygonBar}
    (h : daily.length < 2) : gapEvents w mg daily = [] := by
  match daily, h with
  | [], _ => rfl
  | [b], _ => rfl

/-! ### Running-sum lemmas -/

theorem runningSums_length (a : ℚ) (l : List ℚ) :
    (runningSums a l).length = l.length := by
  induction l generalizing a with
  | nil => rfl
  | cons x xs ih => simp [runningSums, ih]

theorem runningSums_getElem? (a : ℚ) (l : List ℚ) (i : ℕ) (h : i < l.length) :
    (runningSums a l)[i]? = some (a + (l.take (i + 1)).sum) := by
  induction l generalizing a i with
  | nil => simp at h
  | cons x xs ih =>
    cases i with
    | zero => simp [runningSums]
    | succ j =>
      have hj : j < xs.length := by simpa using h
      simp only [runningSums, List.getElem?_cons_succ, List.take_succ_cons,
        List.sum_cons, ih (a + x) j hj]
      rw [add_assoc]

theorem runningSums_getLast? (a : ℚ) (l : List ℚ) (h : l ≠ []) :
    (runningSums a l).getLast? = some (a + l.sum) := by
  induction l generalizing a with
  | nil => exact absurd rfl h
  | cons x xs ih =>
    cases xs with
    | nil => simp [runningSums]
    | cons y ys =>
      show ((a + x) :: runningSums (a + x) (y :: ys)).getLast? = _
      rw [show runningSums (a + x) (y :: ys) =
        ((a + x) + y) :: runningSums ((a + x) + y) ys from rfl]
      rw [List.getLast?_cons_cons,
        show ((a + x) + y) :: runningSums ((a + x) + y) ys =
          runningSums (a + x) (y :: ys) from rfl]
      rw [ih (a + x) (by simp)]
      simp [add_assoc]

/-! ### Projection lemmas for `analyzeDaily` -/

theorem analyzeDaily_Data (daily : List PolygonBar) (minGap : ℚ) (years : ℤ)
    (ticker : String) (dateOf : ℤ → ℕ) (weekdayOf : ℤ → String) :
    (analyzeDaily daily minGap years ticker dateOf weekdayOf).Data =
      (gapEvents weekdayOf minGap daily).map (toGapPoint dateOf) := by
  by_cases h : daily.length < 2
  · simp only [analyzeDaily, if_pos h, gapEvents_short h, List.map_nil]
  · simp only [analyzeDaily, if_neg h]

/-! ### C2 -/

/-- C2: the daily extractor emits at most `bars.length - 1` events; the
emitted data are exactly the qualifying events; every qualifying event has
`|gapPct| ≥ minGap` (with `gapPct` the unrounded `(open-prevClose)/prevClose*100`
stored by `mkEvent`); and a pair with non-positive `prev.close` or `day.open`
produces no event (and, the embedding being total, no error). -/
theorem analyzeDaily_extractor_bounds (daily : List PolygonBar) (minGap : ℚ)
    (years : ℤ) (ticker : String) (dateOf : ℤ → ℕ) (weekdayOf : ℤ → String) :
    (analyzeDaily daily minGap years ticker dateOf weekdayOf).Data.length ≤
      daily.length - 1 ∧
    (analyzeDaily daily minGap years ticker dateOf weekdayOf).Data =
      (gapEvents weekdayOf minGap daily).map (toGapPoint dateOf) ∧
    (∀ e ∈ gapEvents weekdayOf minGap daily, minGap ≤ |e.gapPct|) ∧
    (∀ prev day : PolygonBar, prev.c ≤ 0 ∨ day.o ≤ 0 →
      mkEvent weekdayOf minGap prev day = none) := by
  have hdata := analyzeDaily_Data daily minGap years ticker dateOf weekdayOf
  refine ⟨?_, hdata, ?_, ?_⟩
  · rw [hdata, List.length_map]
    calc (gapEvents weekdayOf minGap daily).length
        ≤ (daily.zip daily.tail).length := List.length_filterMap_le _ _
      _ = min daily.length daily.tail.length := List.length_zip _ _
      _ ≤ daily.tail.length := min_le_right _ _
      _ = daily.length - 1 := List.length_tail _
  · intro e he
    simp only [gapEvents, List.mem_filterMap] at he
    obtain ⟨pd, _, hmk⟩ := he
    exact (mkEvent_fields hmk).2.2.2.1
  · intro prev day h
    exact mkEvent_skip h

/-- Witness for C2 at `sampleDaily` with threshold 0.3 and a degenerate pair. -/
theorem analyzeDaily_extractor_bounds_witness :
    (analyzeDaily sampleDaily (3/10) 3 "X" dateId mondayOf).Data.length ≤
      sampleDaily.length - 1 ∧
    ((3 : ℚ)/10 ≤ |sampleEvent.gapPct|) ∧
    mkEvent mondayOf (3/10) ⟨0, 1, 1, 1, 0, 0⟩ sampleBar1 = none := by
  have h := analyzeDaily_extractor_bounds sampleDaily (3/10) 3 "X" dateId mondayOf
  refine ⟨h.1, ?_, h.2.2.2 ⟨0, 1, 1, 1, 0, 0⟩ sampleBar1 (Or.inl (by with_unfolding_all decide))⟩
  exact h.2.2.1 sampleEvent (by with_unfolding_all decide)

/-! ### C5 -/

/-- C5: for every emitted event, the continuation flag is 1 iff the sign of
the (unrounded) daily return equals the gap direction, the direction is
nonzero and the daily return is nonzero; a zero daily return never counts. -/
theorem continuation_flag_rule (weekdayOf : ℤ → String) (minGap : ℚ)
    (prev day : PolygonBar) (e : GapEvent)
    (h : mkEvent weekdayOf minGap prev day = some e) :
    (e.same = 1 ↔
      sign ((day.c - day.o) / day.o * 100) = e.dir ∧ e.dir ≠ 0 ∧
        (day.c - day.o) / day.o * 100 ≠ 0) ∧
    e.dir = sign ((day.o - prev.c) / prev.c * 100) ∧
    ((day.c - day.o) / day.o * 100 = 0 → e.same = 0) := by
  obtain ⟨-, -, hg, -, hdr, hdir, hsame, -⟩ := mkEvent_fields h
  rw [hdr] at hsame
  refine ⟨?_, by rw [hdir, hg], ?_⟩
  · rw [hsame]
    by_cases hc : sign ((day.c - day.o) / day.o * 100) = e.dir ∧ e.dir ≠ 0 ∧
        (day.c - day.o) / day.o * 100 ≠ 0
    · simp [if_pos hc, hc]
    · simp [if_neg hc, hc]
  · intro h0
    rw [hsame, if_neg]
    intro hc
    exact hc.2.2 h0

/-- Witness for C5 at `sampleDaily`'s bar pair. -/
theorem continuation_flag_rule_witness :
    sampleEvent.same = 1 ∧ sampleEvent.dir = sign ((4 - 3 : ℚ) / 3 * 100) := by
  have h := continuation_flag_rule mondayOf (3/10) sampleBar0 sampleBar1
    sampleEvent (by with_unfolding_all decide)
  exact ⟨h.1.mpr (by with_unfolding_all decide), by with_unfolding_all decide⟩

/-! ### C6 -/

/-- C6: for every emitted event, the gap-filled flag is 1 iff
(direction = +1 and the day's low reached the prior close) or
(direction = -1 and the day's high reached it), and 0 otherwise. -/
theorem gap_filled_rule (weekdayOf : ℤ → String) (minGap : ℚ)
    (prev day : PolygonBar) (e : GapEvent)
    (h : mkEvent weekdayOf minGap prev day = some e) :
    (e.filled = 1 ↔
      (e.dir = 1 ∧ day.l ≤ prev.c) ∨ (e.dir = -1 ∧ day.h ≥ prev.c)) ∧
    (e.filled = 0 ↔
      ¬((e.dir = 1 ∧ day.l ≤ prev.c) ∨ (e.dir = -1 ∧ day.h ≥ prev.c))) := by
  obtain ⟨-, -, -, -, -, -, -, hfill, -⟩ := mkEvent_fields h
  constructor
  · rw [hfill]
    by_cases hc : (e.dir = 1 ∧ day.l ≤ prev.c) ∨ (e.dir = -1 ∧ day.h ≥ prev.c)
    · simp [if_pos hc, hc]
    · simp [if_neg hc, hc]
  · rw [hfill]
    by_cases hc : (e.dir = 1 ∧ day.l ≤ prev.c) ∨ (e.dir = -1 ∧ day.h ≥ prev.c)
    · simp [if_pos hc, hc]
    · simp [if_neg hc, hc]

/-- Witness for C6: the sample event's gap (low 3 above prior close 2) is not
filled. -/
theorem gap_filled_rule_witness : sampleEvent.filled = 0 := by
  have h := gap_filled_rule mondayOf (3/10) sampleBar0 sampleBar1
    sampleEvent (by with_unfolding_all decide)
  exact h.2.mpr (by with_unfolding_all decide)

/-! ### C9 -/

/-- C9: with fewer than 2 daily bars the core returns a non-success response
carrying the insufficient-data message (`"not enough data"` in the source),
with no events, no cumulative entries and an all-zero summary. -/
theorem insufficient_data_result (daily : List PolygonBar) (minGap : ℚ)
    (years : ℤ) (ticker : String) (dateOf : ℤ → ℕ) (weekdayOf : ℤ → String)
    (h : daily.length < 2) :
    (analyzeDaily daily minGap years ticker dateOf weekdayOf).Success = false ∧
    (analyzeDaily daily minGap years ticker dateOf weekdayOf).Error =
      "not enough data" ∧
    (analyzeDaily daily minGap years ticker dateOf weekdayOf).Data = [] ∧
    (analyzeDaily daily minGap years ticker dateOf weekdayOf).CumDates = [] ∧
    (analyzeDaily daily minGap years ticker dateOf weekdayOf).CumFade = [] ∧
    (analyzeDaily daily minGap years ticker dateOf weekdayOf).CumFollow = [] ∧
    (analyzeDaily daily minGap years ticker dateOf weekdayOf).Summary =
      zeroSummary ∧
    (analyzeDaily daily minGap years ticker dateOf weekdayOf).Bins = [] := by
  simp [analyzeDaily, if_pos h]

/-- Witness for C9 on the empty bar list. -/
theorem insufficient_data_result_witness :
    (analyzeDaily [] 1 3 "X" dateId mondayOf).Success = false ∧
    (analyzeDaily [] 1 3 "X" dateId mondayOf).Error = "not enough data" ∧
    (analyzeDaily [] 1 3 "X" dateId mondayOf).Data = [] ∧
    (analyzeDaily [] 1 3 "X" dateId mondayOf).CumDates = [] ∧
    (analyzeDaily [] 1 3 "X" dateId mondayOf).CumFade = [] ∧
    (analyzeDaily [] 1 3 "X" dateId mondayOf).CumFollow = [] ∧
    (analyzeDaily [] 1 3 "X" dateId mondayOf).Summary = zeroSummary ∧
    (analyzeDaily [] 1 3 "X" dateId mondayOf).Bins = [] :=
  insufficient_data_result [] 1 3 "X" dateId mondayOf (by decide)

/-! ### C10 helper lemmas -/

theorem maxGapUp_ge (evs : List GapEvent) :
    ∀ a : ℚ, a ≤ evs.foldl (fun m e => if e.gapPct > m then e.gapPct else m) a := by
  induction evs with
  | nil => intro a; simp
  | cons e tl ih =>
    intro a
    simp only [List.foldl_cons]
    by_cases h : e.gapPct > a
    · rw [if_pos h]; exact le_trans (le_of_lt h) (ih _)
    · rw [if_neg h]; exact ih a

theorem maxGapDown_le (evs : List GapEvent) :
    ∀ a : ℚ, evs.foldl (fun m e => if e.gapPct < m then e.gapPct else m) a ≤ a := by
  induction evs with
  | nil => intro a; simp
  | cons e tl ih =>
    intro a
    simp only [List.foldl_cons]
    by_cases h : e.gapPct < a
    · rw [if_pos h]; exact le_trans (ih _) (le_of_lt h)
    · rw [if_neg h]; exact ih a

theorem maxGapUp_of_nonpos (evs : List GapEvent)
    (h : ∀ e ∈ evs, e.gapPct ≤ 0) : maxGapUp evs = 0 := by
  unfold maxGapUp
  induction evs with
  | nil => rfl
  | cons e tl ih =>
    simp only [List.foldl_cons]
    rw [if_neg (not_lt.mpr (h e (List.mem_cons_self e tl)))]
    exact ih (fun x hx => h x (List.mem_cons_of_mem e hx))

theorem maxGapDown_of_nonneg (evs : List GapEvent)
    (h : ∀ e ∈ evs, 0 ≤ e.gapPct) : maxGapDown evs = 0 := by
  unfold maxGapDown
  induction evs with
  | nil => rfl
  | cons e tl ih =>
    simp only [List.foldl_cons]
    rw [if_neg (not_lt.mpr (h e (List.mem_cons_self e tl)))]
    exact ih (fun x hx => h x (List.mem_cons_of_mem e hx))

theorem roundAway_nonneg {x : ℚ} (h : 0 ≤ x) : 0 ≤ roundAway x := by
  unfold roundAway
  rw [if_pos h]
  exact Int.le_floor.mpr (by push_cast; linarith)

theorem roundAway_nonpos {x : ℚ} (h : x ≤ 0) : roundAway x ≤ 0 := by
  unfold roundAway
  by_cases h0 : 0 ≤ x
  · rw [if_pos h0]
    have hx0 : x = 0 := le_antisymm h h0
    subst hx0
    simp only [zero_add]
    have : (⌊(1:ℚ)/2⌋ : ℤ) = 0 := by
      rw [Int.floor_eq_zero_iff]
      constructor <;> norm_num
    omega
  · rw [if_neg h0]
    exact Int.ceil_le.mpr (by push_cast; linarith)

theorem round2_nonneg {x : ℚ} (h : 0 ≤ x) : 0 ≤ round2 x := by
  unfold round2
  rw [Rat.divInt_eq_div]
  have := roundAway_nonneg (show (0:ℚ) ≤ x * 100 by positivity)
  positivity

theorem round2_nonpos {x : ℚ} (h : x ≤ 0) : round2 x ≤ 0 := by
  unfold round2
  rw [Rat.divInt_eq_div]
  have h1 : roundAway (x * 100) ≤ 0 := roundAway_nonpos (by linarith)
  have h2 : ((roundAway (x * 100) : ℚ)) ≤ 0 := by exact_mod_cast h1
  linarith

theorem roundAway_zero : roundAway 0 = 0 :=
  le_antisymm (roundAway_nonpos le_rfl) (roundAway_nonneg le_rfl)

theorem round2_zero : round2 0 = 0 := by
  unfold round2
  rw [show (0:ℚ) * 100 = 0 from by ring, roundAway_zero]
  rfl

theorem maxGapUp_nonneg (evs : List GapEvent) : 0 ≤ maxGapUp evs :=
  maxGapUp_ge evs 0

theorem maxGapDown_nonpos (evs : List GapEvent) : maxGapDown evs ≤ 0 :=
  maxGapDown_le evs 0

/-! ### C10 -/

/-- C10: the summary's `MaxGapUp` is nonnegative and `MaxGapDown` is
nonpositive; they are exactly 0 when no qualifying event has a positive
(resp. negative) gap percentage. -/
theorem summary_max_gap_signs (daily : List PolygonBar) (minGap : ℚ)
    (years : ℤ) (ticker : String) (dateOf : ℤ → ℕ) (weekdayOf : ℤ → String) :
    0 ≤ (analyzeDaily daily minGap years ticker dateOf weekdayOf).Summary.MaxGapUp ∧
    (analyzeDaily daily minGap years ticker dateOf weekdayOf).Summary.MaxGapDown ≤ 0 ∧
    ((∀ e ∈ gapEvents weekdayOf minGap daily, e.gapPct ≤ 0) →
      (analyzeDaily daily minGap years ticker dateOf weekdayOf).Summary.MaxGapUp = 0) ∧
    ((∀ e ∈ gapEvents weekdayOf minGap daily, 0 ≤ e.gapPct) →
      (analyzeDaily daily minGap years ticker dateOf weekdayOf).Summary.MaxGapDown = 0) := by
  by_cases h : daily.length < 2
  · simp [analyzeDaily, if_pos h, zeroSummary]
  · simp only [analyzeDaily, if_neg h]
    refine ⟨round2_nonneg (maxGapUp_nonneg _), round2_nonpos (maxGapDown_nonpos _),
      ?_, ?_⟩
    · intro hge
      rw [maxGapUp_of_nonpos _ hge, round2_zero]
    · intro hge
      rw [maxGapDown_of_nonneg _ hge, round2_zero]

/-- Witness for C10 on a series whose only event is a gap-down. -/
theorem summary_max_gap_signs_witness :
    0 ≤ (analyzeDaily downDaily (3/10) 3 "X" dateId mondayOf).Summary.MaxGapUp ∧
    (analyzeDaily downDaily (3/10) 3 "X" dateId mondayOf).Summary.MaxGapUp = 0 := by
  have h := summary_max_gap_signs downDaily (3/10) 3 "X" dateId mondayOf
  exact ⟨h.1, h.2.2.1 (by with_unfolding_all decide)⟩

/-! ### C8 -/

/-- C8: with at least 2 daily bars, the daily by-weekday map has exactly the
keys Mon..Fri, and a weekday without qualifying events maps to the all-zero
`DowStat`. -/
theorem byDOW_keys (daily : List PolygonBar) (minGap : ℚ) (years : ℤ)
    (ticker : String) (dateOf : ℤ → ℕ) (weekdayOf : ℤ → String)
    (h : 2 ≤ daily.length) :
    (∀ k : String,
      ((analyzeDaily daily minGap years ticker dateOf weekdayOf).ByDOW k).isSome ↔
        k ∈ weekdayKeys) ∧
    (∀ k ∈ weekdayKeys,
      (gapEvents weekdayOf minGap daily).filter (fun e => e.dow == k) = [] →
      (analyzeDaily daily minGap years ticker dateOf weekdayOf).ByDOW k =
        some ⟨0, 0, 0, 0⟩) := by
  have hn : ¬ daily.length < 2 := not_lt.mpr h
  simp only [analyzeDaily, if_neg hn]
  constructor
  · intro k
    by_cases hk : k ∈ weekdayKeys
    · simp [hk]
    · simp [hk]
  · intro k hk hf
    simp only [if_pos hk, hf]
    rfl

/-- Witness for C8 at `sampleDaily` (one Monday event). -/
theorem byDOW_keys_witness :
    (analyzeDaily sampleDaily (3/10) 3 "X" dateId mondayOf).ByDOW "Tue" =
      some ⟨0, 0, 0, 0⟩ ∧
    (((analyzeDaily sampleDaily (3/10) 3 "X" dateId mondayOf).ByDOW "Sat").isSome ↔
      "Sat" ∈ weekdayKeys) := by
  have h := byDOW_keys sampleDaily (3/10) 3 "X" dateId mondayOf (by decide)
  exact ⟨h.2 "Tue" (by decide) (by with_unfolding_all decide), h.1 "Sat"⟩

/-! ### C4 -/

theorem recommendationFor_iff (cr : ℚ) :
    (recommendationFor cr = "FOLLOW" ↔ 60 < cr) ∧
    (recommendationFor cr = "FADE" ↔ cr < 40) ∧
    (recommendationFor cr = "NEUTRAL" ↔ 40 ≤ cr ∧ cr ≤ 60) := by
  unfold recommendationFor
  by_cases h1 : cr > 60
  · rw [if_pos h1]
    refine ⟨by simp [h1], ?_, ?_⟩
    · constructor
      · intro hs; exact absurd hs (by decide)
      · intro hlt; linarith
    · constructor
      · intro hs; exact absurd hs (by decide)
      · intro hb; linarith [hb.2]
  · rw [if_neg h1]
    by_cases h2 : cr < 40
    · rw [if_pos h2]
      refine ⟨?_, by simp [h2], ?_⟩
      · constructor
        · intro hs; exact absurd hs (by decide)
        · intro hlt; linarith
      · constructor
        · intro hs; exact absurd hs (by decide)
        · intro hb; linarith [hb.1]
    · rw [if_neg h2]
      refine ⟨?_, ?_, by simp [le_of_not_lt h2, le_of_not_lt h1]⟩
      · constructor
        · intro hs; exact absurd hs (by decide)
        · intro hlt; exact absurd hlt h1
      · constructor
        · intro hs; exact absurd hs (by decide)
        · intro hlt; exact absurd hlt h2

set_option maxRecDepth 4000 in
/-- C4 counterexample: on `binGapDaily` the second bin is empty, so its
emitted `BinStat` has continuation rate 0 (which is below 40) but the
zero-value recommendation `""`, not `"FADE"` (and not `"NEUTRAL"` either) —
the claimed iff fails for empty groups. -/
theorem recommendation_empty_bin_cex :
    ((analyzeDaily binGapDaily (3/10) 3 "X" dateId mondayOf).Bins.map
      (fun b => (b.Count, b.ContinuationRate, b.Recommendation)))[1]? =
      some (0, 0, "") ∧
    ((0 : ℚ) < 40) ∧ ("" : String) ≠ "FADE" := by
  refine ⟨by with_unfolding_all decide, by norm_num, by decide⟩

/-- C4 (amended): for every daily or intraday bin whose count is positive,
the recommendation is FOLLOW iff the group's (unrounded) continuation rate
exceeds 60, FADE iff it is below 40, and NEUTRAL iff it lies in [40, 60]
(so exactly 60 or exactly 40 yield NEUTRAL); empty bins instead carry the
zero-value recommendation `""`. -/
theorem recommendation_thresholds :
    (∀ (daily : List PolygonBar) (minGap : ℚ) (years : ℤ) (ticker : String)
        (dateOf : ℤ → ℕ) (weekdayOf : ℤ → String) (b : BinStat),
      b ∈ (analyzeDaily daily minGap years ticker dateOf weekdayOf).Bins →
      0 < b.Count →
      ((b.Recommendation = "FOLLOW" ↔
        60 < (contCount ((gapEvents weekdayOf minGap daily).filter
            (fun e => e.bin == b.Label)) : ℚ) /
          (((gapEvents weekdayOf minGap daily).filter
            (fun e => e.bin == b.Label)).length : ℚ) * 100) ∧
      (b.Recommendation = "FADE" ↔
        (contCount ((gapEvents weekdayOf minGap daily).filter
            (fun e => e.bin == b.Label)) : ℚ) /
          (((gapEvents weekdayOf minGap daily).filter
            (fun e => e.bin == b.Label)).length : ℚ) * 100 < 40) ∧
      (b.Recommendation = "NEUTRAL" ↔
        40 ≤ (contCount ((gapEvents weekdayOf minGap daily).filter
            (fun e => e.bin == b.Label)) : ℚ) /
          (((gapEvents weekdayOf minGap daily).filter
            (fun e => e.bin == b.Label)).length : ℚ) * 100 ∧
        (contCount ((gapEvents weekdayOf minGap daily).filter
            (fun e => e.bin == b.Label)) : ℚ) /
          (((gapEvents weekdayOf minGap daily).filter
            (fun e => e.bin == b.Label)).length : ℚ) * 100 ≤ 60))) ∧
    (∀ (resp : AnalyzeResponse) (m : ℕ → List PolygonBar)
        (hourOf minuteOf : ℤ → ℕ) (b : BinStat15),
      resp.Data ≠ [] →
      b ∈ (analyzeFirst15 resp m hourOf minuteOf).Bins15 →
      0 < b.Count →
      ((b.Recommendation = "FOLLOW" ↔
        60 < (contCount15 ((contribs15 hourOf minuteOf m resp.Data).filter
            (fun pc => pc.1.Bin == b.Label)) : ℚ) /
          (((contribs15 hourOf minuteOf m resp.Data).filter
            (fun pc => pc.1.Bin == b.Label)).length : ℚ) * 100) ∧
      (b.Recommendation = "FADE" ↔
        (contCount15 ((contribs15 hourOf minuteOf m resp.Data).filter
            (fun pc => pc.1.Bin == b.Label)) : ℚ) /
          (((contribs15 hourOf minuteOf m resp.Data).filter
            (fun pc => pc.1.Bin == b.Label)).length : ℚ) * 100 < 40) ∧
      (b.Recommendation = "NEUTRAL" ↔
        40 ≤ (contCount15 ((contribs15 hourOf minuteOf m resp.Data).filter
            (fun pc => pc.1.Bin == b.Label)) : ℚ) /
          (((contribs15 hourOf minuteOf m resp.Data).filter
            (fun pc => pc.1.Bin == b.Label)).length : ℚ) * 100 ∧
        (contCount15 ((contribs15 hourOf minuteOf m resp.Data).filter
            (fun pc => pc.1.Bin == b.Label)) : ℚ) /
          (((contribs15 hourOf minuteOf m resp.Data).filter
            (fun pc => pc.1.Bin == b.Label)).length : ℚ) * 100 ≤ 60))) := by
  constructor
  · intro daily minGap years ticker dateOf weekdayOf b hb hc
    by_cases h2 : daily.length < 2
    · simp only [analyzeDaily, if_pos h2] at hb
      simp at hb
    · simp only [analyzeDaily, if_neg h2] at hb
      obtain ⟨gb, hgb, rfl⟩ := List.mem_map.mp hb
      by_cases hsel : ((gapEvents weekdayOf minGap daily).filter
          (fun e => e.bin == gb.lab)).length = 0
      · simp only [mkBinStat, if_pos hsel] at hc
        exact absurd hc (by norm_num)
      · simp only [mkBinStat, if_neg hsel]
        exact recommendationFor_iff _
  · intro resp m hourOf minuteOf b hne hb hc
    simp only [analyzeFirst15] at hb
    rw [if_neg hne] at hb
    simp only at hb
    obtain ⟨gb, hgb, rfl⟩ := List.mem_map.mp hb
    by_cases hsel : ((contribs15 hourOf minuteOf m resp.Data).filter
        (fun pc => pc.1.Bin == gb.lab)).length = 0
    · simp only [mkBinStat15, if_pos hsel] at hc
      exact absurd hc (by norm_num)
    · simp only [mkBinStat15, if_neg hsel]
      exact recommendationFor_iff _

set_option maxHeartbeats 2000000 in
/-- Witness for the amended C4: the single-event `>1.5%` bin of `sampleDaily`
(continuation rate 100) is recommended FOLLOW, both daily and intraday. -/
theorem recommendation_thresholds_witness :
    ((analyzeDaily sampleDaily (3/10) 3 "X" dateId mondayOf).Bins.map
      (fun b => b.Recommendation))[3]? = some "FOLLOW" ∧
    ((analyzeFirst15 sampleResp sampleMinutes nineOf thirtyOf).Bins15.map
      (fun b => b.Recommendation))[3]? = some "FOLLOW" := by
  have h := recommendation_thresholds
  have hlen : 3 < (analyzeDaily sampleDaily (3/10) 3 "X" dateId mondayOf).Bins.length := by
    norm_num [analyzeDaily, sampleDaily, defaultBins]
  have hcount : 0 < ((analyzeDaily sampleDaily (3/10) 3 "X" dateId mondayOf).Bins[3]).Count := by
    norm_num [analyzeDaily, sampleDaily, sampleBar0, sampleBar1, defaultBins,
      mkBinStat, gapEvents, mkEvent, sign, rabs, labelFor, fmt1, rhe, mondayOf,
      List.zip, List.zipWith, List.filterMap_cons, contCount]
  have hlab : ((analyzeDaily sampleDaily (3/10) 3 "X" dateId mondayOf).Bins[3]).Label =
      ">1.5%" := by
    norm_num [analyzeDaily, sampleDaily, sampleBar0, sampleBar1, defaultBins,
      mkBinStat, gapEvents, mkEvent, sign, rabs, labelFor, fmt1, rhe, mondayOf,
      List.zip, List.zipWith, List.filterMap_cons]
  have hcr : 60 < (contCount ((gapEvents mondayOf (3/10) sampleDaily).filter
      (fun e => e.bin == ((analyzeDaily sampleDaily (3/10) 3 "X" dateId
        mondayOf).Bins[3]).Label)) : ℚ) /
      (((gapEvents mondayOf (3/10) sampleDaily).filter
      (fun e => e.bin == ((analyzeDaily sampleDaily (3/10) 3 "X" dateId
        mondayOf).Bins[3]).Label)).length : ℚ) * 100 := by
    rw [hlab]
    norm_num [gapEvents, mkEvent, sampleDaily, sampleBar0, sampleBar1, sign,
      rabs, labelFor, defaultBins, fmt1, rhe, mondayOf, List.zip, List.zipWith,
      List.filterMap_cons, contCount]
  have hrec := (h.1 sampleDaily (3/10) 3 "X" dateId mondayOf _
    (List.getElem_mem hlen) hcount).1.mpr hcr
  constructor
  · rw [List.getElem?_map, List.getElem?_eq_getElem hlen]
    simp [hrec]
  · have hne : sampleResp.Data ≠ [] := by
      with_unfolding_all decide
    have hlen15 : 3 < (analyzeFirst15 sampleResp sampleMinutes nineOf
        thirtyOf).Bins15.length := by
      norm_num [analyzeFirst15, sampleResp, analyzeDaily, sampleDaily,
        sampleBar0, sampleBar1, defaultBins, gapEvents, mkEvent, sign, rabs,
        labelFor, fmt1, rhe, mondayOf, List.zip, List.zipWith,
        List.filterMap_cons]
    have hcount15 : 0 < ((analyzeFirst15 sampleResp sampleMinutes nineOf
        thirtyOf).Bins15[3]).Count := by
      norm_num [analyzeFirst15, sampleResp, analyzeDaily, sampleDaily,
        sampleBar0, sampleBar1, defaultBins, mkBinStat15, contribs15,
        first15Compute, sampleMinutes, sampleMinuteBar, nineOf, thirtyOf,
        gapEvents, mkEvent, toGapPoint, sign, rabs, labelFor, fmt1, rhe,
        mondayOf, dateId, List.zip, List.zipWith, List.filterMap_cons,
        contCount15]
    have hlab15 : ((analyzeFirst15 sampleResp sampleMinutes nineOf
        thirtyOf).Bins15[3]).Label = ">1.5%" := by
      norm_num [analyzeFirst15, sampleResp, analyzeDaily, sampleDaily,
        sampleBar0, sampleBar1, defaultBins, mkBinStat15, contribs15,
        first15Compute, sampleMinutes, sampleMinuteBar, nineOf, thirtyOf,
        gapEvents, mkEvent, toGapPoint, sign, rabs, labelFor, fmt1, rhe,
        mondayOf, dateId, List.zip, List.zipWith, List.filterMap_cons]
    have hcr15 : 60 < (contCount15 ((contribs15 nineOf thirtyOf sampleMinutes
        sampleResp.Data).filter (fun pc => pc.1.Bin ==
          ((analyzeFirst15 sampleResp sampleMinutes nineOf
            thirtyOf).Bins15[3]).Label)) : ℚ) /
        (((contribs15 nineOf thirtyOf sampleMinutes sampleResp.Data).filter
          (fun pc => pc.1.Bin == ((analyzeFirst15 sampleResp sampleMinutes
            nineOf thirtyOf).Bins15[3]).Label)).length : ℚ) * 100 := by
      rw [hlab15]
      norm_num [contribs15, first15Compute, sampleResp, analyzeDaily,
        sampleDaily, sampleBar0, sampleBar1, sampleMinutes, sampleMinuteBar,
        nineOf, thirtyOf, gapEvents, mkEvent, toGapPoint, sign, rabs, labelFor,
        defaultBins, fmt1, rhe, mondayOf, dateId, List.zip, List.zipWith,
        List.filterMap_cons, contCount15]
    have hrec15 := (h.2 sampleResp sampleMinutes nineOf thirtyOf _ hne
      (List.getElem_mem hlen15) hcount15).1.mpr hcr15
    rw [List.getElem?_map, List.getElem?_eq_getElem hlen15]
    simp [hrec15]

/-! ### C1 helper lemmas -/

theorem fmt1_3_10 : fmt1 (3/10) = "0.3" := by
  norm_num [fmt1, rhe, Int.floor_eq_iff]
  decide

theorem append_ne_of_ne_suffix {a b : String} (h : ¬ a.data <:+ b.data)
    (s : String) : s ++ a ≠ b := by
  intro he
  apply h
  refine ⟨s.data, ?_⟩
  obtain ⟨sd⟩ := s
  obtain ⟨ad⟩ := a
  rw [← he]
  rfl

theorem dash05_ne_other (s : String) : s ++ "–0.5%" ≠ "other" :=
  append_ne_of_ne_suffix (by decide) s

theorem dash05_ne_lab2 (s : String) : s ++ "–0.5%" ≠ "0.5–1.0%" :=
  append_ne_of_ne_suffix (by decide) s

theorem dash05_ne_lab3 (s : String) : s ++ "–0.5%" ≠ "1.0–1.5%" :=
  append_ne_of_ne_suffix (by decide) s

theorem dash05_ne_lab4 (s : String) : s ++ "–0.5%" ≠ ">1.5%" :=
  append_ne_of_ne_suffix (by decide) s

theorem labelFor_mem_or_other (x : ℚ) (bins : List gapBin) :
    labelFor x bins ∈ bins.map gapBin.lab ∨ labelFor x bins = "other" := by
  induction bins with
  | nil => right; rfl
  | cons b rest ih =>
    unfold labelFor
    by_cases h : x ≥ b.min ∧ x < b.max
    · rw [if_pos h]
      left
      simp
    · rw [if_neg h]
      rcases ih with h1 | h1
      · left
        simp only [List.map_cons, List.mem_cons]
        right
        exact h1
      · right
        exact h1

theorem defaultBins_labels_nodup (minGap : ℚ) :
    ((defaultBins minGap).map gapBin.lab ++ ["other"]).Nodup := by
  simp only [defaultBins, List.map_cons, List.map_nil, List.cons_append,
    List.nil_append, List.nodup_cons, List.mem_cons, List.not_mem_nil,
    or_false, List.mem_singleton]
  refine ⟨?_, ?_, ?_, ?_, ?_⟩
  · push_neg
    exact ⟨dash05_ne_lab2 _, dash05_ne_lab3 _, dash05_ne_lab4 _,
      dash05_ne_other _⟩
  · push_neg
    refine ⟨by decide, by decide, by decide⟩
  · push_neg
    refine ⟨by decide, by decide⟩
  · exact (by decide : (">1.5%" : String) ≠ "other")
  · simp

theorem sum_if_eq_one {v : String} :
    ∀ (ks : List String), ks.Nodup → v ∈ ks →
      (ks.map (fun k => if v = k then 1 else 0)).sum = 1 := by
  intro ks
  induction ks with
  | nil => intro _ h; simp at h
  | cons a l ih =>
    intro hnd hm
    rcases List.mem_cons.mp hm with h | h
    · rw [List.map_cons, List.sum_cons, if_pos h]
      have hz : (l.map (fun k => if v = k then 1 else 0)).sum = 0 := by
        apply List.sum_eq_zero
        intro x hx
        obtain ⟨k, hk, hkx⟩ := List.mem_map.mp hx
        have : v ≠ k := by
          intro he
          have hak : a = k := h.symm.trans he
          exact (List.nodup_cons.mp hnd).1 (by rw [hak]; exact hk)
        rw [← hkx, if_neg this]
      rw [hz]
    · have hne : v ≠ a := by
        intro he
        exact (List.nodup_cons.mp hnd).1 (he ▸ h)
      rw [List.map_cons, List.sum_cons, if_neg hne,
        ih (List.nodup_cons.mp hnd).2 h]

theorem sum_map_add_nat (g h : String → ℕ) :
    ∀ ks : List String,
      (ks.map (fun k => g k + h k)).sum = (ks.map g).sum + (ks.map h).sum := by
  intro ks
  induction ks with
  | nil => simp
  | cons a l ih =>
    simp only [List.map_cons, List.sum_cons, ih]
    omega

theorem sum_filter_lengths (f : GapEvent → String) :
    ∀ (evs : List GapEvent) (keys : List String), keys.Nodup →
      (∀ e ∈ evs, f e ∈ keys) →
      (keys.map (fun k => (evs.filter (fun e => f e == k)).length)).sum =
        evs.length := by
  intro evs
  induction evs with
  | nil => intro keys _ _; simp
  | cons e tl ih =>
    intro keys hnd hall
    have hmem : f e ∈ keys := hall e (List.mem_cons_self e tl)
    have htl : ∀ x ∈ tl, f x ∈ keys :=
      fun x hx => hall x (List.mem_cons_of_mem e hx)
    have hstep : ∀ k : String,
        (((e :: tl).filter (fun x => f x == k)).length) =
          ((tl.filter (fun x => f x == k)).length) + (if f e = k then 1 else 0) := by
      intro k
      by_cases h : f e = k
      · simp [List.filter_cons, h]
      · simp [List.filter_cons, h]
    calc (keys.map (fun k => ((e :: tl).filter (fun x => f x == k)).length)).sum
        = (keys.map (fun k => ((tl.filter (fun x => f x == k)).length) +
            (if f e = k then 1 else 0))).sum := by
          simp only [hstep]
      _ = (keys.map (fun k => ((tl.filter (fun x => f x == k)).length))).sum +
          (keys.map (fun k => if f e = k then 1 else 0)).sum :=
          sum_map_add_nat _ _ keys
      _ = tl.length + 1 := by rw [ih keys hnd htl, sum_if_eq_one keys hnd hmem]
      _ = (e :: tl).length := by simp

theorem lab1_3_10 : ("0.3" ++ "–0.5%" : String) = "0.3–0.5%" := by decide

theorem other_ne1 : (("other" : String) == "0.3–0.5%") = false := by decide

theorem other_ne2 : (("other" : String) == "0.5–1.0%") = false := by decide

theorem other_ne3 : (("other" : String) == "1.0–1.5%") = false := by decide

theorem other_ne4 : (("other" : String) == ">1.5%") = false := by decide

theorem mkBinStat_count (b : gapBin) (evs : List GapEvent) :
    (mkBinStat b evs).Count = (evs.filter (fun e => e.bin == b.lab)).length := by
  unfold mkBinStat
  by_cases h : (evs.filter (fun e => e.bin == b.lab)).length = 0
  · rw [if_pos h]
    exact h.symm
  · rw [if_neg h]

/-! ### C1 -/

set_option maxHeartbeats 1000000 in
/-- C1 counterexample: a +100% gap (prior close 1, open 2) qualifies at
`minGap = 0.3` and its absolute gap exceeds `effectiveMin`, yet the code's
last bin stops at 99, so the event is labeled `"other"`; the per-bin counts
then sum to 0 while one event was emitted. -/
theorem binning_other_cex :
    ((analyzeDaily hugeGapDaily (3/10) 3 "X" dateId mondayOf).Data.map
      (fun p => p.Bin)) = ["other"] ∧
    (analyzeDaily hugeGapDaily (3/10) 3 "X" dateId mondayOf).Data.length = 1 ∧
    ((analyzeDaily hugeGapDaily (3/10) 3 "X" dateId mondayOf).Bins.map
      (fun b => b.Count)).sum = 0 ∧
    max (3/10 : ℚ) (1/10) ≤ 100 ∧ ¬ ((100 : ℚ) < 99) ∧ (1 : ℕ) ≠ 0 := by
  refine ⟨?_, ?_, ?_, by norm_num, by norm_num, by norm_num⟩
  · norm_num [analyzeDaily, hugeGapDaily, gapEvents, mkEvent, toGapPoint,
      sign, rabs, labelFor, defaultBins, fmt1_3_10, mondayOf, dateId,
      List.zip, List.zipWith, List.filterMap_cons]
  · norm_num [analyzeDaily, hugeGapDaily, gapEvents, mkEvent, sign, rabs,
      labelFor, defaultBins, mondayOf, List.zip, List.zipWith,
      List.filterMap_cons]
  · norm_num [analyzeDaily, hugeGapDaily, gapEvents, mkEvent, mkBinStat_count,
      sign, rabs, labelFor, defaultBins, fmt1_3_10, lab1_3_10, other_ne1,
      other_ne2, other_ne3, other_ne4, mondayOf, List.zip, List.zipWith,
      List.filterMap_cons, List.filter_cons]

/-- C1 (amended): over the range the bins actually cover — absolute gaps `x`
with `effectiveMin = max(minGap, 0.1) ≤ x < 99` — exactly one of the four
bins contains `x` and the assigned label is never `"other"`; and for every
input, the per-bin counts plus the `"other"`-labeled events sum to the total
number of qualifying events (so the bin counts alone account for every event
except the `"other"` ones, which exist exactly for `|gap| ≥ 99`). -/
theorem binning_partition (minGap x : ℚ) (daily : List PolygonBar)
    (years : ℤ) (ticker : String) (dateOf : ℤ → ℕ) (weekdayOf : ℤ → String)
    (hx1 : max minGap (1/10) ≤ x) (hx2 : x < 99) :
    ((defaultBins minGap).countP
      (fun b => decide (b.min ≤ x ∧ x < b.max)) = 1) ∧
    labelFor x (defaultBins minGap) ≠ "other" ∧
    (((analyzeDaily daily minGap years ticker dateOf weekdayOf).Bins.map
        (fun b => b.Count)).sum +
      ((gapEvents weekdayOf minGap daily).filter
        (fun e => e.bin == "other")).length =
      (analyzeDaily daily minGap years ticker dateOf weekdayOf).Data.length) := by
  have hst : (if minGap < 1/10 then (1:ℚ)/10 else minGap) = max minGap (1/10) := by
    by_cases h : minGap < 1/10
    · rw [if_pos h, max_eq_right (le_of_lt h)]
    · rw [if_neg h, max_eq_left (le_of_not_lt h)]
  have hstx : (if minGap < 1/10 then (1:ℚ)/10 else minGap) ≤ x := by
    rw [hst]; exact hx1
  refine ⟨?_, ?_, ?_⟩
  · simp only [defaultBins, List.countP_cons, List.countP_nil,
      decide_eq_true_eq]
    rcases lt_or_le x (1/2) with h1 | h1
    · rw [if_neg (by rintro ⟨h, -⟩; linarith), if_neg (by rintro ⟨h, -⟩; linarith),
        if_neg (by rintro ⟨h, -⟩; linarith), if_pos ⟨hstx, h1⟩]
    · rcases lt_or_le x 1 with h2 | h2
      · rw [if_neg (by rintro ⟨h, -⟩; linarith), if_neg (by rintro ⟨h, -⟩; linarith),
          if_pos ⟨h1, h2⟩, if_neg (by rintro ⟨-, h⟩; linarith)]
      · rcases lt_or_le x (3/2) with h3 | h3
        · rw [if_neg (by rintro ⟨h, -⟩; linarith), if_pos ⟨h2, h3⟩,
            if_neg (by rintro ⟨-, h⟩; linarith), if_neg (by rintro ⟨-, h⟩; linarith)]
        · rw [if_pos ⟨h3, hx2⟩, if_neg (by rintro ⟨-, h⟩; linarith),
            if_neg (by rintro ⟨-, h⟩; linarith), if_neg (by rintro ⟨-, h⟩; linarith)]
  · simp only [defaultBins, labelFor]
    rcases lt_or_le x (1/2) with h1 | h1
    · rw [if_pos ⟨hstx, h1⟩]
      exact dash05_ne_other _
    · rw [if_neg (by rintro ⟨-, h⟩; linarith)]
      rcases lt_or_le x 1 with h2 | h2
      · rw [if_pos ⟨h1, h2⟩]
        decide
      · rw [if_neg (by rintro ⟨-, h⟩; linarith)]
        rcases lt_or_le x (3/2) with h3 | h3
        · rw [if_pos ⟨h2, h3⟩]
          decide
        · rw [if_neg (by rintro ⟨-, h⟩; linarith), if_pos ⟨h3, hx2⟩]
          decide
  · by_cases hlen : daily.length < 2
    · simp [analyzeDaily, if_pos hlen, gapEvents_short hlen]
    · simp only [analyzeDaily, if_neg hlen]
      have hall : ∀ e ∈ gapEvents weekdayOf minGap daily,
          e.bin ∈ (defaultBins minGap).map gapBin.lab ++ ["other"] := by
        intro e he
        simp only [gapEvents, List.mem_filterMap] at he
        obtain ⟨pd, -, hmk⟩ := he
        obtain ⟨-, -, -, -, -, -, -, -, -, hbin, -⟩ := mkEvent_fields hmk
        rw [hbin]
        rcases labelFor_mem_or_other e.absGap (defaultBins minGap) with h | h
        · exact List.mem_append_left _ h
        · rw [h]
          exact List.mem_append_right _ (by simp)
      have hsum := sum_filter_lengths GapEvent.bin
        (gapEvents weekdayOf minGap daily)
        ((defaultBins minGap).map gapBin.lab ++ ["other"])
        (defaultBins_labels_nodup minGap) hall
      rw [List.map_append, List.sum_append] at hsum
      simp only [List.map_cons, List.map_nil, List.sum_cons, List.sum_nil,
        add_zero] at hsum
      simp only [List.map_map, List.length_map]
      have hcomp : ((fun b => BinStat.Count b) ∘ fun b => mkBinStat b
          (gapEvents weekdayOf minGap daily)) = fun b =>
          ((gapEvents weekdayOf minGap daily).filter
            (fun e => e.bin == b.lab)).length := by
        funext b
        exact mkBinStat_count b _
      rw [hcomp]
      rw [List.map_map] at hsum
      exact hsum

/-- Witness for the amended C1 at `minGap = 0.3`, `x = 50`, on `sampleDaily`. -/
theorem binning_partition_witness :
    ((defaultBins (3/10)).countP
      (fun b => decide (b.min ≤ (50:ℚ) ∧ (50:ℚ) < b.max)) = 1) ∧
    labelFor 50 (defaultBins (3/10)) ≠ "other" ∧
    (((analyzeDaily sampleDaily (3/10) 3 "X" dateId mondayOf).Bins.map
        (fun b => b.Count)).sum +
      ((gapEvents mondayOf (3/10) sampleDaily).filter
        (fun e => e.bin == "other")).length =
      (analyzeDaily sampleDaily (3/10) 3 "X" dateId mondayOf).Data.length) :=
  binning_partition (3/10) 50 sampleDaily 3 "X" dateId mondayOf
    (by norm_num [max_le_iff]) (by norm_num)

/-! ### C3 helper lemmas -/

theorem roundAway_100000_3 : roundAway (100000/3 : ℚ) = 33333 := by
  norm_num [roundAway, Int.floor_eq_iff]

theorem filterMap_map_sublist {α β γ : Type} (f : α → Option β) (g : β → γ)
    (h : α → γ) (H : ∀ a b, f a = some b → g b = h a) :
    ∀ l : List α, ((l.filterMap f).map g).Sublist (l.map h) := by
  intro l
  induction l with
  | nil => simp
  | cons a tl ih =>
    simp only [List.filterMap_cons]
    cases hfa : f a with
    | none =>
      simp only [List.map_cons]
      exact ih.cons _
    | some b =>
      simp only [List.map_cons]
      rw [H a b hfa]
      exact ih.cons₂ _

/-! ### C3 -/

/-- C3 counterexample: on `sampleDaily` the single follow return is 100/3,
whose running total is stored rounded to 3 decimals (33.333), so the last
cumulative element does not equal the exact sum the Summary divides. -/
theorem cumulative_last_cex :
    (analyzeDaily sampleDaily (3/10) 3 "X" dateId mondayOf).CumFollow.getLast? =
      some (Rat.divInt 33333 1000) ∧
    followSum (gapEvents mondayOf (3/10) sampleDaily) = 100/3 ∧
    (Rat.divInt 33333 1000 : ℚ) ≠ 100/3 := by
  refine ⟨?_, ?_, by norm_num [Rat.divInt_eq_div]⟩
  · norm_num [analyzeDaily, sampleDaily, sampleBar0, sampleBar1, gapEvents,
      mkEvent, sign, rabs, labelFor, defaultBins, mondayOf, runningSums,
      round3, roundAway_100000_3, List.zip, List.zipWith, List.filterMap_cons]
  · norm_num [followSum, gapEvents, mkEvent, sampleDaily, sampleBar0,
      sampleBar1, sign, rabs, labelFor, defaultBins, mondayOf, List.zip,
      List.zipWith, List.filterMap_cons]

/-- C3 (amended): given time-ordered bars and at least one qualifying event,
the cumulative series are ordered by session date, have one entry per event,
each entry is the 3-decimal rounding of the plain running sum (no
compounding) of the unrounded per-event returns, and the last entries equal
the roundings of the exact fade/follow sums that the Summary divides by the
event count. -/
theorem cumulative_series_spec (daily : List PolygonBar) (minGap : ℚ)
    (years : ℤ) (ticker : String) (dateOf : ℤ → ℕ) (weekdayOf : ℤ → String)
    (hsorted : List.Pairwise (fun a b : PolygonBar => a.t ≤ b.t) daily)
    (hmono : ∀ a b : ℤ, a ≤ b → dateOf a ≤ dateOf b)
    (hne : gapEvents weekdayOf minGap daily ≠ []) :
    List.Pairwise (fun a b : ℕ => a ≤ b)
      (analyzeDaily daily minGap years ticker dateOf weekdayOf).CumDates ∧
    (analyzeDaily daily minGap years ticker dateOf weekdayOf).CumDates.length =
      (analyzeDaily daily minGap years ticker dateOf weekdayOf).Data.length ∧
    (analyzeDaily daily minGap years ticker dateOf weekdayOf).CumFade.length =
      (analyzeDaily daily minGap years ticker dateOf weekdayOf).Data.length ∧
    (analyzeDaily daily minGap years ticker dateOf weekdayOf).CumFollow.length =
      (analyzeDaily daily minGap years ticker dateOf weekdayOf).Data.length ∧
    (∀ i, i < (analyzeDaily daily minGap years ticker dateOf weekdayOf).Data.length →
      (analyzeDaily daily minGap years ticker dateOf weekdayOf).CumFollow[i]? =
        some (round3 ((((gapEvents weekdayOf minGap daily).map
          GapEvent.followRet).take (i+1)).sum)) ∧
      (analyzeDaily daily minGap years ticker dateOf weekdayOf).CumFade[i]? =
        some (round3 ((((gapEvents weekdayOf minGap daily).map
          GapEvent.fadeRet).take (i+1)).sum))) ∧
    (analyzeDaily daily minGap years ticker dateOf weekdayOf).CumFollow.getLast? =
      some (round3 (followSum (gapEvents weekdayOf minGap daily))) ∧
    (analyzeDaily daily minGap years ticker dateOf weekdayOf).CumFade.getLast? =
      some (round3 (fadeSum (gapEvents weekdayOf minGap daily))) := by
  have hlen : ¬ daily.length < 2 := fun h => hne (gapEvents_short h)
  simp only [analyzeDaily, if_neg hlen]
  refine ⟨?_, ?_, ?_, ?_, ?_, ?_, ?_⟩
  · have hts : ((gapEvents weekdayOf minGap daily).map GapEvent.t).Sublist
        (daily.tail.map PolygonBar.t) := by
      have hsnd : (daily.zip daily.tail).map (fun pd => pd.2.t) =
          daily.tail.map PolygonBar.t := by
        have : (daily.zip daily.tail).map Prod.snd = daily.tail :=
          List.map_snd_zip _ _ (by simpa using List.length_tail_le daily)
        calc (daily.zip daily.tail).map (fun pd => pd.2.t)
            = ((daily.zip daily.tail).map Prod.snd).map PolygonBar.t := by
              rw [List.map_map]; rfl
          _ = daily.tail.map PolygonBar.t := by rw [this]
      have := filterMap_map_sublist
        (fun pd => mkEvent weekdayOf minGap pd.1 pd.2) GapEvent.t
        (fun pd => pd.2.t)
        (fun pd e hmk => (mkEvent_fields hmk).2.2.2.2.2.2.2.2.2.2.2.1)
        (daily.zip daily.tail)
      rw [hsnd] at this
      exact this
    have htail : List.Pairwise (fun a b : PolygonBar => a.t ≤ b.t) daily.tail :=
      hsorted.sublist (List.tail_sublist daily)
    have httail : List.Pairwise (fun a b : ℤ => a ≤ b)
        (daily.tail.map PolygonBar.t) := List.pairwise_map.mpr htail
    have hpair : List.Pairwise (fun a b : ℤ => a ≤ b)
        ((gapEvents weekdayOf minGap daily).map GapEvent.t) :=
      httail.sublist hts
    have : List.Pairwise (fun a b : ℕ => a ≤ b)
        (((gapEvents weekdayOf minGap daily).map GapEvent.t).map dateOf) := by
      rw [List.pairwise_map]
      exact hpair.imp (fun h => hmono _ _ h)
    rw [List.map_map] at this
    exact this
  · simp [runningSums_length]
  · simp [runningSums_length]
  · simp [runningSums_length]
  · intro i hi
    rw [List.length_map] at hi
    constructor
    · rw [List.getElem?_map,
        runningSums_getElem? 0 ((gapEvents weekdayOf minGap daily).map
          GapEvent.followRet) i (by simpa using hi)]
      simp
    · rw [List.getElem?_map,
        runningSums_getElem? 0 ((gapEvents weekdayOf minGap daily).map
          GapEvent.fadeRet) i (by simpa using hi)]
      simp
  · rw [List.getLast?_map,
      runningSums_getLast? 0 ((gapEvents weekdayOf minGap daily).map
        GapEvent.followRet) (by simpa using hne)]
    simp [followSum]
  · rw [List.getLast?_map,
      runningSums_getLast? 0 ((gapEvents weekdayOf minGap daily).map
        GapEvent.fadeRet) (by simpa using hne)]
    simp [fadeSum]

/-- Witness for the amended C3 on `sampleDaily` with the order-preserving
date map `dateId`. -/
theorem cumulative_series_spec_witness :
    List.Pairwise (fun a b : ℕ => a ≤ b)
      (analyzeDaily sampleDaily (3/10) 3 "X" dateId mondayOf).CumDates ∧
    (analyzeDaily sampleDaily (3/10) 3 "X" dateId mondayOf).CumFollow.getLast? =
      some (round3 (followSum (gapEvents mondayOf (3/10) sampleDaily))) := by
  have h := cumulative_series_spec sampleDaily (3/10) 3 "X" dateId mondayOf
    (by decide) (fun a b hab => Int.toNat_le_toNat hab)
    (by with_unfolding_all decide)
  exact ⟨h.1, h.2.2.2.2.2.1⟩

/-! ### C7 -/

/-- C7: a daily gap event whose session date has no intraday bars is skipped
by the overlay: it contributes nothing to the contributing-session list
(hence to no intraday summary, bin, side or weekday total, which are all
computed from that list), its own record is written back unchanged (0-15m
fields left at their defaults), and every daily field of the response is
unchanged. -/
theorem intraday_skip_frame (resp : AnalyzeResponse) (m : ℕ → List PolygonBar)
    (hourOf minuteOf : ℤ → ℕ) (pre post : List GapPoint) (p : GapPoint)
    (hdata : resp.Data = pre ++ p :: post) (hm : m p.Date = []) :
    contribs15 hourOf minuteOf m resp.Data =
      contribs15 hourOf minuteOf m (pre ++ post) ∧
    (analyzeFirst15 resp m hourOf minuteOf).Data =
      pre.map (updatePoint15 hourOf minuteOf m) ++ p ::
        post.map (updatePoint15 hourOf minuteOf m) ∧
    (analyzeFirst15 resp m hourOf minuteOf).Summary15 =
      mkSummary15 (contribs15 hourOf minuteOf m (pre ++ post)) ∧
    (analyzeFirst15 resp m hourOf minuteOf).Bins15 =
      (defaultBins resp.MinGap).map (fun b =>
        mkBinStat15 b (contribs15 hourOf minuteOf m (pre ++ post))) ∧
    (analyzeFirst15 resp m hourOf minuteOf).UpSide15 =
      mkSideStat15 ((contribs15 hourOf minuteOf m (pre ++ post)).filter
        (fun pc => pc.1.Direction == 1)) ∧
    (analyzeFirst15 resp m hourOf minuteOf).DownSide15 =
      mkSideStat15 ((contribs15 hourOf minuteOf m (pre ++ post)).filter
        (fun pc => !(pc.1.Direction == 1))) ∧
    (∀ k : String, (analyzeFirst15 resp m hourOf minuteOf).ByDOW15 k =
      (if k ∈ weekdayKeys ∨
          k ∈ (contribs15 hourOf minuteOf m (pre ++ post)).map
            (fun pc => pc.1.DayOfWeek) then
        some (mkDowStat15 ((contribs15 hourOf minuteOf m (pre ++ post)).filter
          (fun pc => pc.1.DayOfWeek == k)))
      else none)) ∧
    (analyzeFirst15 resp m hourOf minuteOf).Summary = resp.Summary ∧
    (analyzeFirst15 resp m hourOf minuteOf).Bins = resp.Bins ∧
    (analyzeFirst15 resp m hourOf minuteOf).ByDOW = resp.ByDOW ∧
    (analyzeFirst15 resp m hourOf minuteOf).UpSide = resp.UpSide ∧
    (analyzeFirst15 resp m hourOf minuteOf).DownSide = resp.DownSide ∧
    (analyzeFirst15 resp m hourOf minuteOf).CumDates = resp.CumDates ∧
    (analyzeFirst15 resp m hourOf minuteOf).CumFade = resp.CumFade ∧
    (analyzeFirst15 resp m hourOf minuteOf).CumFollow = resp.CumFollow := by
  have hcomp : first15Compute hourOf minuteOf m p = none := by
    simp [first15Compute, hm]
  have hcs : contribs15 hourOf minuteOf m resp.Data =
      contribs15 hourOf minuteOf m (pre ++ post) := by
    rw [hdata]
    simp only [contribs15, List.filterMap_append, List.filterMap_cons, hcomp,
      Option.map_none']
  have hne : resp.Data ≠ [] := by
    rw [hdata]
    simp
  refine ⟨hcs, ?_, ?_, ?_, ?_, ?_, ?_, ?_, ?_, ?_, ?_, ?_, ?_, ?_, ?_⟩
  · simp only [analyzeFirst15]
    rw [if_neg hne]
    simp only [hdata, List.map_append, List.map_cons]
    rw [show updatePoint15 hourOf minuteOf m p = p from by
      simp [updatePoint15, hcomp]]
  · simp only [analyzeFirst15]
    rw [if_neg hne]
    simp only [hcs]
  · simp only [analyzeFirst15]
    rw [if_neg hne]
    simp only [hcs]
  · simp only [analyzeFirst15]
    rw [if_neg hne]
    simp only [hcs]
  · simp only [analyzeFirst15]
    rw [if_neg hne]
    simp only [hcs]
  · intro k
    simp only [analyzeFirst15]
    rw [if_neg hne]
    simp only [hcs]
  · simp only [analyzeFirst15]
    rw [if_neg hne]
  · simp only [analyzeFirst15]
    rw [if_neg hne]
  · simp only [analyzeFirst15]
    rw [if_neg hne]
  · simp only [analyzeFirst15]
    rw [if_neg hne]
  · simp only [analyzeFirst15]
    rw [if_neg hne]
  · simp only [analyzeFirst15]
    rw [if_neg hne]
  · simp only [analyzeFirst15]
    rw [if_neg hne]
  · simp only [analyzeFirst15]
    rw [if_neg hne]

theorem roundAway_50000 : roundAway (50000 : ℚ) = 50000 := by
  norm_num [roundAway, Int.floor_eq_iff]

/-- Witness for C7: with no intraday bars at all, the overlay leaves the
sample response's daily fields and its single event untouched and collects
no contributing sessions. -/
theorem intraday_skip_frame_witness :
    contribs15 nineOf thirtyOf noMinutes sampleResp.Data =
      contribs15 nineOf thirtyOf noMinutes ([] ++ []) ∧
    (analyzeFirst15 sampleResp noMinutes nineOf thirtyOf).Data =
      List.map (updatePoint15 nineOf thirtyOf noMinutes) [] ++ samplePoint ::
        List.map (updatePoint15 nineOf thirtyOf noMinutes) [] ∧
    (analyzeFirst15 sampleResp noMinutes nineOf thirtyOf).Summary =
      sampleResp.Summary ∧
    (analyzeFirst15 sampleResp noMinutes nineOf thirtyOf).CumFollow =
      sampleResp.CumFollow := by
  have hdata : sampleResp.Data = [] ++ samplePoint :: [] := by
    norm_num [sampleResp, analyzeDaily, sampleDaily, sampleBar0, sampleBar1,
      gapEvents, mkEvent, toGapPoint, samplePoint, sign, rabs, labelFor,
      defaultBins, mondayOf, dateId, round3, roundAway_50000, roundAway_100000_3,
      Rat.divInt_eq_div, List.zip, List.zipWith, List.filterMap_cons]
  have h := intraday_skip_frame sampleResp noMinutes nineOf thirtyOf [] []
    samplePoint hdata rfl
  exact ⟨h.1, h.2.1, h.2.2.2.2.2.2.2.1, h.2.2.2.2.2.2.2.2.2.2.2.2.2.2⟩
